import Mathlib

/-!
Shallow embedding of the time-series normalization engine of
`djangoExample.py` (model `CSVFile` and mixin `CalculateMixin`).

Conventions of the embedding:
* Calendar dates handled by `get_dates` / `get_data_charts` /
  `grahp_specification_data` are modelled as `Int` day numbers (Python
  `datetime.date` is totally ordered and stepped by one-day increments;
  only order and `+1` matter to those functions).  `get_data_table`
  needs calendar structure (month/year arithmetic), so it uses a
  dedicated `Date` structure with year/month/day fields.
* Money values are modelled as `ℚ`.
* A Django queryset `cls.objects` is modelled as a `List` of records;
  per the storage contract the list is ordered by date (ascending) with
  at most one record per date, so `.first()` is `List.head?` and
  `.last()` is `List.getLast?`.  Ordering assumptions appear as
  `Pairwise` hypotheses in the theorems that need them.
* Python exceptions that the functions can raise are made explicit with
  `Except Err`: `UnboundLocalError` (the `standard_value` /
  `standart_value` name slip on line 365), `ZeroDivisionError`, and the
  `AttributeError` raised by `getattr(None, field)` when an anchor
  lookup in `get_data_table` finds no record (a missing baseline).
-/

/-- Errors surfaced by the engine, mirroring the Python exceptions the
source can raise. -/
inductive Err where
  | unboundLocal : Err
  | divisionByZero : Err
  | missingBaseline : Err
deriving DecidableEq, Repr

/-- Currency codes `UAH = 1`, `USD = 2`, `EURO = 3` of `CSVFile.CURRENCY_LIST`. -/
inductive Currency where
  | uah : Currency
  | usd : Currency
  | euro : Currency
deriving DecidableEq, Repr

/-- `CSVFile.CURRENCY_FIELDS`: maps a currency code to the name of the
per-record value field. -/
def CURRENCY_FIELDS : Currency → String
  | .uah => "avg_uah"
  | .usd => "avg_usd"
  | .euro => "avg_euro"

/-- Field-name selection shared by `get_data_charts` (lines 299-302) and
`grahp_specification_data` (lines 342-345): the per-currency field when a
currency is given, `avg_uah` otherwise. -/
def calculating_field (currency : Option Currency) : String :=
  match currency with
  | some c => CURRENCY_FIELDS c
  | none => "avg_uah"

/-- One stored observation of a product-category model (`SheetGK`,
`Balka`, …): a date and the three per-currency average values. -/
structure PriceRecord where
  date : Int
  avg_uah : ℚ
  avg_usd : ℚ
  avg_euro : ℚ
deriving DecidableEq, Repr

/-- `getattr(record, field)` for the per-currency fields of a product
record. -/
def PriceRecord.getField (r : PriceRecord) (f : String) : ℚ :=
  if f = "avg_uah" then r.avg_uah
  else if f = "avg_usd" then r.avg_usd
  else if f = "avg_euro" then r.avg_euro
  else 0

/-- Modelled from the spec: the record of the synthetic `CompositeIndex`
model, whose class is not part of the given source.  Per the spec's data
model it carries "a single unqualified value instead of per-currency
values". -/
structure IndexRecord where
  date : Int
  value : ℚ
deriving DecidableEq, Repr

/-- Modelled from the spec: `getattr` on a `CompositeIndex` record.  The
record has a single unqualified value, so every field name produced by
stripping the `avg_` prefix (line 306) resolves to that value. -/
def IndexRecord.getField (r : IndexRecord) (_f : String) : ℚ :=
  r.value

/-- Body of `CalculateMixin.get_data_charts` (lines 289-330) after the
calculating field has been fixed: `val` is `getattr(·, calculating_field)`.
Returns `none` for an invalid period (fewer than two dates) or when no
record exists at or before `dates[0]` (no `standart_value`); otherwise one
value per date: the exact-date record of the `[dates[0], dates[-1]]`
window if present, else the standard value, scaled by
`step * 100 / standart` unless `standart` is zero, in which case the raw
step value is appended. -/
def charts_core {R : Type} (dateOf : R → Int) (val : R → ℚ)
    (recs : List R) (dates : List Int) : Option (List ℚ) :=
  if dates.length < 2 then none
  else
    match dates with
    | [] => none
    | d0 :: rest =>
      let dn := (d0 :: rest).getLastD 0
      match (recs.filter (fun r => dateOf r ≤ d0)).getLast? with
      | none => none
      | some s =>
        let standart := val s
        let window := recs.filter (fun r => d0 ≤ dateOf r ∧ dateOf r ≤ dn)
        some ((d0 :: rest).map (fun d =>
          let step := match (window.filter (fun r => dateOf r = d)).head? with
            | some r => val r
            | none => standart
          if standart = 0 then step else step * 100 / standart))

/-- `CalculateMixin.get_data_charts` (lines 289-330).  `isCompositeIdx`
models the `cls.__name__ == 'CompositeIndex'` test of line 305, which
strips the `avg_` prefix from the calculating field. -/
def get_data_charts {R : Type} (dateOf : R → Int) (get : R → String → ℚ)
    (isCompositeIdx : Bool) (recs : List R) (dates : List Int)
    (currency : Option Currency) : Option (List ℚ) :=
  let f0 := calculating_field currency
  let f := if isCompositeIdx then f0.replace "avg_" "" else f0
  charts_core dateOf (fun r => get r f) recs dates

/-- `get_data_charts` on a product-category model class. -/
def charts_price (recs : List PriceRecord) (dates : List Int)
    (currency : Option Currency) : Option (List ℚ) :=
  get_data_charts PriceRecord.date PriceRecord.getField false recs dates currency

/-- `get_data_charts` on the `CompositeIndex` model class. -/
def charts_composite (recs : List IndexRecord) (dates : List Int)
    (currency : Option Currency) : Option (List ℚ) :=
  get_data_charts IndexRecord.date IndexRecord.getField true recs dates currency

/-- Record pool cached for one specification category by
`grahp_specification_data` (lines 356-359): the records inside
`[dates[0], dates[-1]]`, or — when that window is empty — every record at
or before `dates[-1]`. -/
def pool (classes : Nat → List PriceRecord) (k : Nat) (d0 dn : Int) :
    List PriceRecord :=
  let period_data := (classes k).filter (fun r => d0 ≤ r.date ∧ r.date ≤ dn)
  if period_data.isEmpty then (classes k).filter (fun r => r.date ≤ dn)
  else period_data

/-- Caching loop of `grahp_specification_data` (lines 354-365).  For each
specification key the pool is cached; when the pool is empty the loop
`continue`s, and otherwise line 365 executes
`standard_value += getattr(period_data.first(), calculating_field) * weight`.
`standard_value` is a misspelling of the accumulator `standart_value`
initialised on line 351, and an augmented assignment to a never-assigned
local name raises `UnboundLocalError`, so the first category with a
non-empty pool aborts the call. -/
def cache_filtered_data (classes : Nat → List PriceRecord) (d0 dn : Int) :
    List (Nat × ℚ) → Except Err (List (Nat × ℚ × List PriceRecord))
  | [] => .ok []
  | (k, w) :: rest =>
    let period_data := pool classes k d0 dn
    if period_data.isEmpty then
      (cache_filtered_data classes d0 dn rest).map
        (fun cached => (k, w, period_data) :: cached)
    else
      .error .unboundLocal

/-- Per-date weighted sum of `grahp_specification_data` (lines 370-380):
for each cached category, the exact-date record, else the most recent
pooled record at or before the date, else the earliest pooled record at
or after it; a category whose pool yields nothing `continue`s. -/
def composite_step (cached : List (Nat × ℚ × List PriceRecord)) (f : String)
    (d : Int) : ℚ :=
  cached.foldl (fun summ c =>
    let pd : List PriceRecord := c.2.2
    let s1 : Option PriceRecord := (pd.filter (fun r => r.date = d)).head?
    let s2 : Option PriceRecord := match s1 with
      | some r => some r
      | none => (pd.filter (fun r => r.date ≤ d)).getLast?
    let s3 : Option PriceRecord := match s2 with
      | some r => some r
      | none => (pd.filter (fun r => d ≤ r.date)).head?
    match s3 with
    | none => summ
    | some r => summ + r.getField f * c.2.1) 0

/-- Date loop of `grahp_specification_data` (lines 368-382): appends
`summ * 100 / standart_value` per date; Python raises
`ZeroDivisionError` at the division whenever `standart_value` is zero. -/
def composite_dates_loop (cached : List (Nat × ℚ × List PriceRecord))
    (f : String) (standart : ℚ) : List Int → Except Err (List ℚ)
  | [] => .ok []
  | d :: ds =>
    let summ := composite_step cached f d
    if standart = 0 then .error .divisionByZero
    else (composite_dates_loop cached f standart ds).map
      (fun tl => summ * 100 / standart :: tl)

/-- `CalculateMixin.grahp_specification_data` (lines 332-384).  `classes`
models `CSVFile.get_class_mapping()` composed with the per-class record
store; `kwargs` is the specification as a `(category code, weight)` list
in Python dict iteration order (`kwargs[k]['value']` is the weight).
Because of the line-365 name slip the accumulator `standart_value` is
still `0` when the date loop runs, so the call always raises once the
period is valid: `UnboundLocalError` if some category has a non-empty
pool, otherwise `ZeroDivisionError` on the first date. -/
def grahp_specification_data (classes : Nat → List PriceRecord)
    (dates : List Int) (currency : Option Currency)
    (kwargs : List (Nat × ℚ)) : Except Err (Option (List ℚ)) :=
  if dates.length < 2 then .ok none
  else
    let f := calculating_field currency
    let d0 := dates.headD 0
    let dn := dates.getLastD 0
    match cache_filtered_data classes d0 dn kwargs with
    | .error e => .error e
    | .ok cached => (composite_dates_loop cached f 0 dates).map some

/-- Modelled from the spec: `grahp_specification_data` with the line-365
slip corrected so that the accumulation lands in `standart_value`, i.e.
the intended behaviour the spec describes — the denominator is the sum
over categories of the pool's first record value times the weight,
computed once before the date loop. -/
def grahp_specification_data_fixed (classes : Nat → List PriceRecord)
    (dates : List Int) (currency : Option Currency)
    (kwargs : List (Nat × ℚ)) : Except Err (Option (List ℚ)) :=
  if dates.length < 2 then .ok none
  else
    let f := calculating_field currency
    let d0 := dates.headD 0
    let dn := dates.getLastD 0
    let cached := kwargs.map (fun kw => (kw.1, kw.2, pool classes kw.1 d0 dn))
    let standart := cached.foldl (fun s c =>
      match c.2.2 with
      | [] => s
      | r :: _ => s + r.getField f * c.2.1) 0
    (composite_dates_loop cached f standart dates).map some

/-- `CSVFile.DEFAULT_DATE_DELTA_DAYS` (line 46). -/
def DEFAULT_DATE_DELTA_DAYS : Int := 7

/-- Iteration of the `while date_from <= date_to` loop of
`CSVFile.get_dates` (lines 154-157), with the number of remaining
iterations `(date_to + 1 - date_from).toNat` made explicit as fuel. -/
def get_dates_go (date_from : Int) : Nat → List Int
  | 0 => []
  | n + 1 => date_from :: get_dates_go (date_from + 1) n

/-- `CSVFile.get_dates` (lines 135-159) on date objects (the string-input
branch of lines 143-146 only converts textual input and is outside the
claims).  A missing `date_to` defaults to today, a missing `date_from`
to `date_to - DEFAULT_DATE_DELTA_DAYS`; the loop collects every day from
`date_from` up to `date_to` inclusive. -/
def get_dates (date_from date_to : Option Int) (today : Int) : List Int :=
  let dt := date_to.getD today
  let df := date_from.getD (dt - DEFAULT_DATE_DELTA_DAYS)
  get_dates_go df (dt + 1 - df).toNat

/-- Graph/file type codes of `CSVFile` (lines 48-57). -/
def TYPE_INDEX : Nat := 1

def TYPE_SHEET : Nat := 2

def TYPE_BALKA : Nat := 3

def TYPE_SCHVELLER : Nat := 4

def TYPE_UGOLOK : Nat := 5

def TYPE_PROFIL_TRUBA : Nat := 6

def TYPE_KRUGLAYA_TRUBA : Nat := 7

def TYPE_FINAL_METHOD : Nat := 8

def TYPE_EXCHANGE_RATES : Nat := 9

def TYPE_SHARE_SPECIFICATIONS : Nat := 10

/-- `CSVFile.FILE_TYPES` (lines 59-70): the `(code, title)` pairs. -/
def FILE_TYPES : List (Nat × String) :=
  [(TYPE_INDEX, "Composite index"),
   (TYPE_SHEET, "Sheet g/p"),
   (TYPE_BALKA, "Beam"),
   (TYPE_SCHVELLER, "Channel"),
   (TYPE_UGOLOK, "Corner"),
   (TYPE_PROFIL_TRUBA, "Profile pipe"),
   (TYPE_KRUGLAYA_TRUBA, "Round tube"),
   (TYPE_FINAL_METHOD, "Indicator by final method"),
   (TYPE_EXCHANGE_RATES, "Exchange rates"),
   (TYPE_SHARE_SPECIFICATIONS, "Specification shares")]

/-- `CSVFile.get_graph_names` (lines 213-225): code → title dictionary,
modelled as lookup in `FILE_TYPES`. -/
def get_graph_names (k : Nat) : String :=
  ((FILE_TYPES.find? (fun t => t.1 = k)).map (fun t => t.2)).getD ""

/-- `CSVFile.get_specification_percent` (lines 245-280): the default
specification, one `(code, title, value)` entry per product category in
source order. -/
def get_specification_percent : List (Nat × String × ℚ) :=
  [(TYPE_SHEET, get_graph_names TYPE_SHEET, 60),
   (TYPE_BALKA, get_graph_names TYPE_BALKA, 10),
   (TYPE_SCHVELLER, get_graph_names TYPE_SCHVELLER, 10),
   (TYPE_UGOLOK, get_graph_names TYPE_UGOLOK, 10),
   (TYPE_PROFIL_TRUBA, get_graph_names TYPE_PROFIL_TRUBA, 5),
   (TYPE_KRUGLAYA_TRUBA, get_graph_names TYPE_KRUGLAYA_TRUBA, 5)]

/-- Calendar date (`datetime.date`), needed by `get_data_table` for its
month/year arithmetic. -/
structure Date where
  year : Int
  month : Nat
  day : Nat
deriving DecidableEq, Repr

/-- Lexicographic date order, as on Python `datetime.date`. -/
abbrev Date.leP (a b : Date) : Prop :=
  a.year < b.year ∨ (a.year = b.year ∧
    ((a.month : Int) < b.month ∨ (a.month = b.month ∧ (a.day : Int) ≤ b.day)))

/-- Strict lexicographic date order. -/
abbrev Date.ltP (a b : Date) : Prop :=
  a.year < b.year ∨ (a.year = b.year ∧
    ((a.month : Int) < b.month ∨ (a.month = b.month ∧ (a.day : Int) < b.day)))

/-- Boolean form of `Date.leP`, used where the source compares dates. -/
def Date.ble (a b : Date) : Bool :=
  decide (Date.leP a b)

/-- Gregorian leap-year test. -/
def isLeap (y : Int) : Bool :=
  y % 4 = 0 && (y % 100 ≠ 0 || y % 400 = 0)

/-- Number of days in a month of a given year. -/
def daysInMonth (y : Int) (m : Nat) : Nat :=
  if m = 2 then (if isLeap y then 29 else 28)
  else if m = 4 ∨ m = 6 ∨ m = 9 ∨ m = 11 then 30
  else 31

/-- `today - relativedelta(months=1)` (line 397): the previous calendar
month, with the day clamped to that month's length. -/
def monthsAgo1 (d : Date) : Date :=
  if d.month = 1 then ⟨d.year - 1, 12, min d.day (daysInMonth (d.year - 1) 12)⟩
  else ⟨d.year, d.month - 1, min d.day (daysInMonth d.year (d.month - 1))⟩

/-- `today - relativedelta(years=1)` (line 406): the previous year, with
the day clamped (Feb 29 → Feb 28). -/
def yearsAgo1 (d : Date) : Date :=
  ⟨d.year - 1, d.month, min d.day (daysInMonth (d.year - 1) d.month)⟩

/-- Result dictionary of `get_data_table` (lines 415-420). -/
structure TableRow where
  current : ℚ
  month_ago : ℚ
  start_year : ℚ
  year_ago : ℚ
deriving DecidableEq, Repr

/-- `CalculateMixin.get_data_table` (lines 386-421).  Records are given
already projected to `price_field` as `(date, value)` pairs ordered by
date.  The four anchors are resolved first; `getattr(None, price_field)`
on a missing anchor is the missing-baseline failure, and a zero
reference value makes the corresponding percentage raise
`ZeroDivisionError` (dict-literal evaluation order: month, start-year,
year). -/
def get_data_table (recs : List (Date × ℚ)) (today : Date) :
    Except Err TableRow :=
  let today_data := (recs.filter (fun r => r.1.ble today)).getLast?
  let month_ago := monthsAgo1 today
  let month_ago_data := (recs.filter (fun r => r.1.ble month_ago)).getLast?
  let start_year_data : Option (Date × ℚ) :=
    match (recs.filter (fun r => today.year ≤ r.1.year)).head? with
    | some r => some r
    | none => (recs.filter (fun r => r.1.year ≤ today.year)).getLast?
  let year_ago := yearsAgo1 today
  let year_ago_data := (recs.filter (fun r => r.1.ble year_ago)).getLast?
  match today_data, month_ago_data, start_year_data, year_ago_data with
  | some t, some m, some s, some y =>
    if m.2 = 0 then .error .divisionByZero
    else if s.2 = 0 then .error .divisionByZero
    else if y.2 = 0 then .error .divisionByZero
    else .ok ⟨t.2, (t.2 - m.2) / m.2 * 100, (t.2 - s.2) / s.2 * 100,
              (t.2 - y.2) / y.2 * 100⟩
  | _, _, _, _ => .error .missingBaseline

/-- Modelled from the spec: the `start_year` anchor resolution the claim
describes — "the first record in the current calendar year", falling back
to "the most recent record at or before the end of the current year"
when the current year has no records. -/
def claimedStartYear (recs : List (Date × ℚ)) (cur : Int) :
    Option (Date × ℚ) :=
  match (recs.filter (fun r => r.1.year = cur)).head? with
  | some r => some r
  | none => (recs.filter (fun r => r.1.year ≤ cur)).getLast?

/-- Spec-level lookup: the value (in field `f`) of the record stored
exactly on date `d`, over the whole store. -/
def exactVal (recs : List PriceRecord) (f : String) (d : Int) : Option ℚ :=
  ((recs.filter (fun r => r.date = d)).head?).map (fun r => r.getField f)

/-- In a list strictly sorted by `lt`, the last element satisfying `p`
is the `lt`-maximal one satisfying `p`. -/
theorem getLast?_filter_of_max {α : Type} {p : α → Bool} {lt : α → α → Prop}
    {l : List α} (hs : l.Pairwise lt) {b : α} (hb : b ∈ l) (hpb : p b = true)
    (hmax : ∀ r ∈ l, p r = true → ¬ lt b r) :
    (l.filter p).getLast? = some b := by
  induction l with
  | nil => cases hb
  | cons a t ih =>
    rcases List.pairwise_cons.mp hs with ⟨hat, ht⟩
    rcases List.mem_cons.mp hb with hba | hbt
    · subst hba
      have htnil : t.filter p = [] :=
        List.filter_eq_nil_iff.mpr fun r hr hpr =>
          absurd (hat r hr) (hmax r (List.mem_cons_of_mem _ hr) hpr)
      rw [List.filter_cons_of_pos hpb, htnil]
      rfl
    · have hft := ih ht hbt fun r hr hpr => hmax r (List.mem_cons_of_mem _ hr) hpr
      have hne : t.filter p ≠ [] := by
        intro hnil
        rw [hnil] at hft
        simp at hft
      by_cases hpa : p a = true
      · rw [List.filter_cons_of_pos hpa]
        exact (List.getLast?_append_of_ne_nil [a] hne).trans hft
      · rw [List.filter_cons_of_neg hpa]
        exact hft

/-- In a list strictly sorted by `lt`, the first element satisfying `p`
is the `lt`-minimal one satisfying `p`. -/
theorem head?_filter_of_min {α : Type} {p : α → Bool} {lt : α → α → Prop}
    {l : List α} (hs : l.Pairwise lt) {b : α} (hb : b ∈ l) (hpb : p b = true)
    (hmin : ∀ r ∈ l, p r = true → ¬ lt r b) :
    (l.filter p).head? = some b := by
  induction l with
  | nil => cases hb
  | cons a t ih =>
    rcases List.pairwise_cons.mp hs with ⟨hat, ht⟩
    rcases List.mem_cons.mp hb with hba | hbt
    · subst hba
      rw [List.filter_cons_of_pos hpb]
      rfl
    · have hpa : ¬ p a = true := fun hpa =>
        absurd (hat b hbt) (hmin a (List.mem_cons_self a t) hpa)
      rw [List.filter_cons_of_neg hpa]
      exact ih ht hbt fun r hr hpr => hmin r (List.mem_cons_of_mem _ hr) hpr

/-- Restricting an exact-date lookup to the `[d0, dn]` window changes
nothing when the date in question lies inside the window. -/
theorem window_exact_filter {R : Type} (dateOf : R → Int) (recs : List R)
    (d0 dn d : Int) (h1 : d0 ≤ d) (h2 : d ≤ dn) :
    ((recs.filter (fun r => d0 ≤ dateOf r ∧ dateOf r ≤ dn)).filter
        (fun r => dateOf r = d)) =
      recs.filter (fun r => dateOf r = d) := by
  rw [List.filter_filter]
  refine List.filter_congr fun r _ => ?_
  by_cases hd : dateOf r = d
  · simp [hd, h1, h2]
  · simp [hd]

/-- `charts_price` unfolded to its core with the calculating field fixed. -/
theorem charts_price_eq_core (recs : List PriceRecord) (dates : List Int)
    (cur : Option Currency) :
    charts_price recs dates cur =
      charts_core PriceRecord.date
        (fun r => r.getField (calculating_field cur)) recs dates := rfl

/-- `charts_core` returns `none` when no record exists at or before the
first date. -/
theorem charts_core_none {R : Type} (dateOf : R → Int) (val : R → ℚ)
    (recs : List R) (dates : List Int)
    (h : ∀ r ∈ recs, ¬ dateOf r ≤ dates.headD 0) :
    charts_core dateOf val recs dates = none := by
  unfold charts_core
  cases dates with
  | nil => simp
  | cons d0 rest =>
    have hnil : recs.filter (fun r => dateOf r ≤ d0) = [] :=
      List.filter_eq_nil_iff.mpr fun r hr => by simpa using h r hr
    by_cases hl : (d0 :: rest).length < 2
    · rw [if_pos hl]
    · rw [if_neg hl]
      simp [hnil]

/-- When a baseline record exists and all dates lie in the window, the
window-restricted exact lookups of `charts_core` coincide with
whole-store exact lookups. -/
theorem charts_core_spec {R : Type} (dateOf : R → Int) (val : R → ℚ)
    (recs : List R) (d0 d1 : Int) (rest : List Int)
    (hrange : ∀ d ∈ d0 :: d1 :: rest,
      d0 ≤ d ∧ d ≤ (d0 :: d1 :: rest).getLastD 0)
    {b : R} (hlast : (recs.filter (fun r => dateOf r ≤ d0)).getLast? = some b) :
    charts_core dateOf val recs (d0 :: d1 :: rest) =
      some ((d0 :: d1 :: rest).map (fun d =>
        let step := match (recs.filter (fun r => dateOf r = d)).head? with
          | some r => val r
          | none => val b
        if val b = 0 then step else step * 100 / val b)) := by
  have hlen : ¬ (d0 :: d1 :: rest).length < 2 := by simp
  unfold charts_core
  rw [if_neg hlen]
  simp only [hlast]
  refine congrArg some (List.map_congr_left fun d hd => ?_)
  rcases hrange d hd with ⟨h1, h2⟩
  rw [window_exact_filter dateOf recs d0 _ d h1 h2]

/-- Normalization behaviour of `get_data_charts` on a product category,
stated with the spec-level baseline characterization: with at least two
dates, records sorted by date and every date inside
`[dates[0], dates[-1]]`, the output per date is the exact-date record's
value (else the baseline value), scaled by `100 / baseline` unless the
baseline is zero. -/
theorem charts_price_spec (recs : List PriceRecord) (dates : List Int)
    (cur : Option Currency) (hlen : 2 ≤ dates.length)
    (hsorted : recs.Pairwise (fun a b => a.date < b.date))
    (hrange : ∀ d ∈ dates, dates.headD 0 ≤ d ∧ d ≤ dates.getLastD 0)
    (b : PriceRecord) (hb : b ∈ recs) (hble : b.date ≤ dates.headD 0)
    (hmax : ∀ r ∈ recs, r.date ≤ dates.headD 0 → r.date ≤ b.date) :
    charts_price recs dates cur =
      some (dates.map (fun d =>
        let bv := b.getField (calculating_field cur)
        let step := (exactVal recs (calculating_field cur) d).getD bv
        if bv = 0 then step else step * 100 / bv)) := by
  match dates, hlen with
  | d0 :: d1 :: rest, _ =>
    have hble' : (fun r : PriceRecord => decide (r.date ≤ d0)) b = true := by
      simpa using hble
    have hlast :
        (recs.filter (fun r => r.date ≤ d0)).getLast? = some b := by
      refine @getLast?_filter_of_max PriceRecord _
        (fun a b => a.date < b.date) recs hsorted b hb hble'
        fun r hr hpr => ?_
      have : r.date ≤ b.date := hmax r hr (by simpa using hpr)
      omega
    rw [charts_price_eq_core,
      charts_core_spec PriceRecord.date _ recs d0 d1 rest hrange hlast]
    refine congrArg some (List.map_congr_left fun d _ => ?_)
    unfold exactVal
    cases (recs.filter (fun r => r.date = d)).head? <;> rfl

/-- C3 (amended): for every date list with at least two dates **whose
dates all lie between the first and last listed date** (in particular
every ascending list), `get_data_charts` selects as baseline the last
record at or before `dates[0]` and returns null when no such record
exists; otherwise it returns a sequence aligned with the dates in which
each position uses the exact-date record's value when present and the
baseline value when absent, scaled as `step * 100 / baseline` when the
baseline is non-zero.  (The claim's unrestricted date-list version is
false: the code looks exact dates up only inside the
`[dates[0], dates[-1]]` window, see `C3_counterexample`.) -/
theorem C3_charts_normalization (recs : List PriceRecord) (dates : List Int)
    (cur : Option Currency) (hlen : 2 ≤ dates.length)
    (hsorted : recs.Pairwise (fun a b => a.date < b.date))
    (hrange : ∀ d ∈ dates, dates.headD 0 ≤ d ∧ d ≤ dates.getLastD 0) :
    ((∀ r ∈ recs, ¬ r.date ≤ dates.headD 0) →
      charts_price recs dates cur = none)
    ∧ (∀ b ∈ recs, b.date ≤ dates.headD 0 →
        (∀ r ∈ recs, r.date ≤ dates.headD 0 → r.date ≤ b.date) →
        charts_price recs dates cur =
          some (dates.map (fun d =>
            let bv := b.getField (calculating_field cur)
            let step := (exactVal recs (calculating_field cur) d).getD bv
            if bv = 0 then step else step * 100 / bv))) := by
  constructor
  · intro h
    rw [charts_price_eq_core]
    exact charts_core_none _ _ recs dates h
  · intro b hb hble hmax
    exact charts_price_spec recs dates cur hlen hsorted hrange b hb hble hmax

/-- Witness for `C3_charts_normalization`: the spec's example scenario —
dates 1..3, records on days 1 and 3 with values 100 and 110 — yields
`[100, 100, 110]`. -/
theorem C3_witness :
    charts_price [⟨1, 100, 100, 100⟩, ⟨3, 110, 110, 110⟩] [1, 2, 3] none =
      some [100, 100, 110] := by
  have h := (C3_charts_normalization
      [⟨1, 100, 100, 100⟩, ⟨3, 110, 110, 110⟩] [1, 2, 3] none
      (by decide) (by simp) (by decide)).2
      ⟨1, 100, 100, 100⟩ (by simp) (by decide) (by decide)
  rw [h]
  norm_num [exactVal, PriceRecord.getField, calculating_field,
    CURRENCY_FIELDS, List.filter]

/-- Counterexample to C3 as stated (quantified over *every* date list):
on the descending list `[3, 1]` with records on days 1 (value 50) and 3
(value 80), the code's window `[3, 1]` is empty, so day 1 gets the
baseline 80 instead of its exact-date record 50: the code returns
`[100, 100]` while the claimed per-date values are `[100, 62.5]`. -/
theorem C3_counterexample :
    charts_price [⟨1, 50, 50, 50⟩, ⟨3, 80, 80, 80⟩] [3, 1] none =
      some [100, 100]
    ∧ [3, 1].map (fun d =>
        (exactVal [⟨1, 50, 50, 50⟩, ⟨3, 80, 80, 80⟩] "avg_uah" d).getD 80
          * 100 / 80) = [100, 125 / 2]
    ∧ (some [100, 100] : Option (List ℚ)) ≠ some [100, 125 / 2] := by
  refine ⟨?_, ?_, ?_⟩
  · norm_num [charts_price, get_data_charts, charts_core, calculating_field,
      CURRENCY_FIELDS, PriceRecord.getField, List.filter, List.getLastD,
      List.getLast?]
  · norm_num [exactVal, PriceRecord.getField, List.filter]
  · norm_num

/-- C8 (amended): for every date list with at least two dates **all lying
between the first and last listed date** whose baseline record value is
exactly 0, `get_data_charts` raises no division error and returns the raw
per-date step values unscaled — the exact-date record's value when
present, else the zero baseline.  (The claim's unrestricted date-list
version fails for the same window reason as C3, see
`C8_counterexample`.) -/
theorem C8_zero_baseline (recs : List PriceRecord) (dates : List Int)
    (cur : Option Currency) (hlen : 2 ≤ dates.length)
    (hsorted : recs.Pairwise (fun a b => a.date < b.date))
    (hrange : ∀ d ∈ dates, dates.headD 0 ≤ d ∧ d ≤ dates.getLastD 0)
    (b : PriceRecord) (hb : b ∈ recs) (hble : b.date ≤ dates.headD 0)
    (hmax : ∀ r ∈ recs, r.date ≤ dates.headD 0 → r.date ≤ b.date)
    (hzero : b.getField (calculating_field cur) = 0) :
    charts_price recs dates cur =
      some (dates.map (fun d =>
        (exactVal recs (calculating_field cur) d).getD 0)) := by
  rw [charts_price_spec recs dates cur hlen hsorted hrange b hb hble hmax]
  refine congrArg some (List.map_congr_left fun d _ => ?_)
  simp [hzero]

/-- Witness for `C8_zero_baseline`: a zero-valued baseline record on day
1 and a record with value 7 on day 2 produce the raw values `[0, 7]` —
no division error. -/
theorem C8_witness :
    charts_price [⟨1, 0, 0, 0⟩, ⟨2, 7, 7, 7⟩] [1, 2] none = some [0, 7] := by
  have h := C8_zero_baseline [⟨1, 0, 0, 0⟩, ⟨2, 7, 7, 7⟩] [1, 2] none
    (by decide) (by simp) (by decide) ⟨1, 0, 0, 0⟩ (by simp) (by decide)
    (by decide) (by norm_num [PriceRecord.getField, calculating_field,
      CURRENCY_FIELDS])
  rw [h]
  norm_num [exactVal, PriceRecord.getField, calculating_field,
    CURRENCY_FIELDS, List.filter]

/-- Counterexample to C8 as stated (quantified over *every* date list):
with records day 1 (value 5) and day 2 (value 0) and the descending list
`[2, 1]`, the baseline is the day-2 record with value 0, the window
`[2, 1]` is empty, and the code returns `[0, 0]` although day 1's
exact-date record holds 5: the per-date values the claim describes are
`[0, 5]`. -/
theorem C8_counterexample :
    charts_price [⟨1, 5, 5, 5⟩, ⟨2, 0, 0, 0⟩] [2, 1] none = some [0, 0]
    ∧ [2, 1].map (fun d =>
        (exactVal [⟨1, 5, 5, 5⟩, ⟨2, 0, 0, 0⟩] "avg_uah" d).getD 0) = [0, 5]
    ∧ (some [0, 0] : Option (List ℚ)) ≠ some [0, 5] := by
  refine ⟨?_, ?_, ?_⟩
  · norm_num [charts_price, get_data_charts, charts_core, calculating_field,
      CURRENCY_FIELDS, PriceRecord.getField, List.filter, List.getLastD,
      List.getLast?]
  · norm_num [exactVal, PriceRecord.getField, List.filter]
  · norm_num

/-- C9: `get_data_charts` on the synthetic composite-index class ignores
the currency argument — two runs over the same dates and records that
differ only in the currency return equal results.  (The composite-index
record is modelled from the spec: it carries a single unqualified value,
so every stripped field name of line 306 reads that value.) -/
theorem C9_composite_ignores_currency (recs : List IndexRecord)
    (dates : List Int) (c1 c2 : Option Currency) :
    charts_composite recs dates c1 = charts_composite recs dates c2 := rfl

/-- The dates loop produces exactly `n` entries. -/
theorem get_dates_go_length (f : Int) (n : Nat) :
    (get_dates_go f n).length = n := by
  induction n generalizing f with
  | zero => rfl
  | succ m ih => simp [get_dates_go, ih]

/-- The dates loop starts at `date_from`. -/
theorem get_dates_go_head (f : Int) (n : Nat) (h : n ≠ 0) :
    (get_dates_go f n).head? = some f := by
  cases n with
  | zero => exact absurd rfl h
  | succ m => rfl

/-- Last entry of the dates loop. -/
theorem get_dates_go_getLast (f : Int) (n : Nat) :
    (get_dates_go f n).getLast? =
      if n = 0 then none else some (f + n - 1) := by
  induction n generalizing f with
  | zero => rfl
  | succ m ih =>
    cases m with
    | zero =>
      simp only [get_dates_go]
      norm_num
    | succ k =>
      have hne : get_dates_go (f + 1) (k + 1) ≠ [] := List.cons_ne_nil _ _
      have : (get_dates_go f (k + 2)).getLast? =
          (get_dates_go (f + 1) (k + 1)).getLast? :=
        List.getLast?_append_of_ne_nil [f] hne
      rw [this, ih]
      simp only [if_neg (Nat.succ_ne_zero k), if_neg (Nat.succ_ne_zero (k + 1))]
      congr 1
      push_cast
      ring

/-- The dates loop steps by exactly one day. -/
theorem get_dates_go_chain (f : Int) (n : Nat) :
    (get_dates_go f n).Chain' (fun a b => b = a + 1) := by
  induction n generalizing f with
  | zero => simp [get_dates_go]
  | succ m ih =>
    rw [get_dates_go, List.chain'_cons']
    refine ⟨fun h hh => ?_, ih (f + 1)⟩
    cases m with
    | zero => cases hh
    | succ k =>
      rw [get_dates_go_head (f + 1) (k + 1) (Nat.succ_ne_zero k)] at hh
      cases hh
      rfl

/-- C4: `get_dates` defaults a missing `date_to` to today and a missing
`date_from` to `date_to - 7` days; for `date_from ≤ date_to` it returns
every calendar date from `date_from` to `date_to` inclusive, strictly
ascending in one-day steps, with length `(date_to - date_from).days + 1`,
first element `date_from` and last element `date_to`; if
`date_from > date_to` the result is empty. -/
theorem C4_get_dates (today f t : Int) :
    get_dates none none today =
      get_dates (some (today - DEFAULT_DATE_DELTA_DAYS)) (some today) today
    ∧ get_dates (some f) none today = get_dates (some f) (some today) today
    ∧ get_dates none (some t) today =
      get_dates (some (t - DEFAULT_DATE_DELTA_DAYS)) (some t) today
    ∧ (f ≤ t →
        (get_dates (some f) (some t) today).length = (t - f).toNat + 1
        ∧ (get_dates (some f) (some t) today).head? = some f
        ∧ (get_dates (some f) (some t) today).getLast? = some t
        ∧ (get_dates (some f) (some t) today).Chain' (fun a b => b = a + 1))
    ∧ (t < f → get_dates (some f) (some t) today = []) := by
  refine ⟨rfl, rfl, rfl, fun h => ⟨?_, ?_, ?_, ?_⟩, fun h => ?_⟩
  · rw [show get_dates (some f) (some t) today =
      get_dates_go f (t + 1 - f).toNat from rfl, get_dates_go_length]
    omega
  · exact get_dates_go_head f _ (by simp; omega)
  · rw [show get_dates (some f) (some t) today =
      get_dates_go f (t + 1 - f).toNat from rfl, get_dates_go_getLast,
      if_neg (by simp; omega)]
    congr 1
    omega
  · exact get_dates_go_chain f _
  · rw [show get_dates (some f) (some t) today =
      get_dates_go f (t + 1 - f).toNat from rfl, show (t + 1 - f).toNat = 0
      from by omega]
    rfl

/-- Witness for `C4_get_dates` at `date_from = 3`, `date_to = 6`:
four dates, first 3, last 6, ascending in one-day steps. -/
theorem C4_witness :
    (get_dates (some 3) (some 6) 10).length = 4
    ∧ (get_dates (some 3) (some 6) 10).head? = some 3
    ∧ (get_dates (some 3) (some 6) 10).getLast? = some 6
    ∧ (get_dates (some 3) (some 6) 10).Chain' (fun a b => b = a + 1) := by
  have h := (C4_get_dates 10 3 6).2.2.2.1 (by decide)
  refine ⟨?_, h.2.1, h.2.2.1, h.2.2.2⟩
  rw [h.1]
  decide

/-- C10: `get_specification_percent` returns default weights for exactly
the six product categories (sheet, beam, channel, corner, profile pipe,
round tube), every weight is positive, and the weights sum to 100. -/
theorem C10_specification_percent :
    get_specification_percent.map (fun e => e.1) =
      [TYPE_SHEET, TYPE_BALKA, TYPE_SCHVELLER, TYPE_UGOLOK,
       TYPE_PROFIL_TRUBA, TYPE_KRUGLAYA_TRUBA]
    ∧ get_specification_percent.map (fun e => e.2.1) =
      ["Sheet g/p", "Beam", "Channel", "Corner", "Profile pipe",
       "Round tube"]
    ∧ (∀ e ∈ get_specification_percent, 0 < e.2.2)
    ∧ (get_specification_percent.map (fun e => e.2.2)).sum = 100 := by
  refine ⟨by decide, by decide, by decide, ?_⟩
  norm_num [get_specification_percent]

/-- C2 (amended): with a single-category weight-1 specification and at
least two dates, `grahp_specification_data` never returns a value
sequence: the line-365 name slip raises `UnboundLocalError` whenever the
category has a usable record, and otherwise the zero accumulator makes
the first date's division raise `ZeroDivisionError`; hence it never
coincides with `get_data_charts`. -/
theorem C2_composite_always_errors (classes : Nat → List PriceRecord)
    (dates : List Int) (cur : Option Currency) (k : Nat) (w : ℚ)
    (hlen : 2 ≤ dates.length) :
    grahp_specification_data classes dates cur [(k, w)] =
      .error .unboundLocal
    ∨ grahp_specification_data classes dates cur [(k, w)] =
      .error .divisionByZero := by
  match dates, hlen with
  | d0 :: d1 :: rest, _ =>
    by_cases hp :
      (pool classes k ((d0 :: d1 :: rest).headD 0)
        ((d0 :: d1 :: rest).getLastD 0)).isEmpty
    · right
      simp only [grahp_specification_data, cache_filtered_data, hp,
        composite_dates_loop, if_true, if_neg (by simp : ¬ (d0 :: d1 :: rest).length < 2)]
      rfl
    · left
      simp only [grahp_specification_data, cache_filtered_data,
        if_neg (by simp : ¬ (d0 :: d1 :: rest).length < 2)]
      rw [if_neg hp]

/-- Witness for `C2_composite_always_errors` on a concrete store with no
records: the call errors. -/
theorem C2_witness :
    grahp_specification_data (fun _ => []) [1, 2] none [(3, 1)] =
      .error .unboundLocal
    ∨ grahp_specification_data (fun _ => []) [1, 2] none [(3, 1)] =
      .error .divisionByZero :=
  C2_composite_always_errors (fun _ => []) [1, 2] none 3 1 (by decide)

/-- Counterexample to C2 as stated: with one category (code 3, weight 1)
holding records 100 and 110 on days 1 and 2, `get_data_charts` returns
`[100, 110]` but `grahp_specification_data` raises `UnboundLocalError`
(line-365 name slip), so the two are never the same sequence. -/
theorem C2_counterexample :
    grahp_specification_data
        (fun kk => if kk = 3 then [⟨1, 100, 100, 100⟩, ⟨2, 110, 110, 110⟩]
          else []) [1, 2] none [(3, 1)]
      ≠ Except.ok (charts_price [⟨1, 100, 100, 100⟩, ⟨2, 110, 110, 110⟩]
          [1, 2] none)
    ∧ charts_price [⟨1, 100, 100, 100⟩, ⟨2, 110, 110, 110⟩] [1, 2] none =
      some [100, 110]
    ∧ grahp_specification_data
        (fun kk => if kk = 3 then [⟨1, 100, 100, 100⟩, ⟨2, 110, 110, 110⟩]
          else []) [1, 2] none [(3, 1)] = .error .unboundLocal := by
  have hch : charts_price [⟨1, 100, 100, 100⟩, ⟨2, 110, 110, 110⟩]
      [1, 2] none = some [100, 110] := by
    norm_num [charts_price, get_data_charts, charts_core, calculating_field,
      CURRENCY_FIELDS, PriceRecord.getField, List.filter, List.getLastD,
      List.getLast?]
  have hg : grahp_specification_data
      (fun kk => if kk = 3 then [⟨1, 100, 100, 100⟩, ⟨2, 110, 110, 110⟩]
        else []) [1, 2] none [(3, 1)] = .error .unboundLocal := by
    norm_num [grahp_specification_data, cache_filtered_data, pool,
      List.filter, List.isEmpty]
  refine ⟨?_, hch, hg⟩
  rw [hg, hch]
  simp

/-- C1: the claim's example scenario (weights beam=2 at code 3 and
corner=1 at code 5; beam baseline 50, corner baseline 25; second date
with beam 60, corner 25).  The shipped code aborts with
`UnboundLocalError` at line 365 (the `standard_value` name slip), while
the slip-corrected model `grahp_specification_data_fixed` produces
exactly the claimed composite values: denominator 50*2+25*1 = 125 and
`[100, 116]` — `(60*2+25*1)*100/125 = 116` on the second date. -/
theorem C1_composite_example :
    grahp_specification_data
        (fun kk => if kk = 3 then [⟨1, 50, 50, 50⟩, ⟨2, 60, 60, 60⟩]
          else if kk = 5 then [⟨1, 25, 25, 25⟩, ⟨2, 25, 25, 25⟩] else [])
        [1, 2] none [(3, 2), (5, 1)] = .error .unboundLocal
    ∧ grahp_specification_data_fixed
        (fun kk => if kk = 3 then [⟨1, 50, 50, 50⟩, ⟨2, 60, 60, 60⟩]
          else if kk = 5 then [⟨1, 25, 25, 25⟩, ⟨2, 25, 25, 25⟩] else [])
        [1, 2] none [(3, 2), (5, 1)] = .ok (some [100, 116]) := by
  constructor
  · norm_num [grahp_specification_data, cache_filtered_data, pool,
      List.filter, List.isEmpty]
  · norm_num [grahp_specification_data_fixed, composite_dates_loop,
      composite_step, pool, PriceRecord.getField, calculating_field,
      CURRENCY_FIELDS, List.filter, List.isEmpty, List.foldl,
      List.getLastD, List.getLast?]
    rfl

/-- C7: with a single category whose only record has value 0 (so the
intended denominator is 0), the shipped code raises `UnboundLocalError`
at line 365 before any division — not `DivisionByZeroError` — while the
slip-corrected model does raise the division error the claim expects. -/
theorem C7_zero_denominator :
    grahp_specification_data (fun kk => if kk = 3 then [⟨1, 0, 0, 0⟩] else [])
        [1, 2] none [(3, 1)] = .error .unboundLocal
    ∧ grahp_specification_data_fixed
        (fun kk => if kk = 3 then [⟨1, 0, 0, 0⟩] else [])
        [1, 2] none [(3, 1)] = .error .divisionByZero := by
  constructor
  · norm_num [grahp_specification_data, cache_filtered_data, pool,
      List.filter, List.isEmpty]
  · norm_num [grahp_specification_data_fixed, composite_dates_loop,
      composite_step, pool, PriceRecord.getField, calculating_field,
      CURRENCY_FIELDS, List.filter, List.isEmpty, List.foldl,
      List.getLastD, List.getLast?]
    rfl

/-- The lexicographic date order is antisymmetric against its strict
version. -/
theorem Date.leP_not_ltP {a b : Date} (h : Date.leP a b) :
    ¬ Date.ltP b a := by
  simp only [Date.leP, Date.ltP] at *
  omega

/-- C6: `get_data_table` fails with the missing-baseline error whenever
any of the four anchor lookups (current, month ago, start of year with
its fallback, year ago) yields no record at all.  In Python the failure
surfaces as the `AttributeError` of `getattr(None, price_field)` (lines
410-413), the code's form of a missing-baseline failure. -/
theorem C6_missing_baseline (recs : List (Date × ℚ)) (today : Date)
    (h : (∀ r ∈ recs, ¬ Date.leP r.1 today)
      ∨ (∀ r ∈ recs, ¬ Date.leP r.1 (monthsAgo1 today))
      ∨ ((∀ r ∈ recs, ¬ today.year ≤ r.1.year)
          ∧ (∀ r ∈ recs, ¬ r.1.year ≤ today.year))
      ∨ (∀ r ∈ recs, ¬ Date.leP r.1 (yearsAgo1 today))) :
    get_data_table recs today = .error .missingBaseline := by
  have hble : ∀ (x : Date), (∀ r ∈ recs, ¬ Date.leP r.1 x) →
      recs.filter (fun r => r.1.ble x) = [] := fun x hx =>
    List.filter_eq_nil_iff.mpr fun r hr => by simpa [Date.ble] using hx r hr
  unfold get_data_table
  dsimp only
  rcases h with h | h | ⟨h1, h2⟩ | h
  · rw [hble today h]
    rfl
  · rw [hble (monthsAgo1 today) h]
    cases (recs.filter (fun r => r.1.ble today)).getLast? <;> rfl
  · have e3a : recs.filter (fun r => today.year ≤ r.1.year) = [] :=
      List.filter_eq_nil_iff.mpr fun r hr => by simpa using h1 r hr
    have e3b : recs.filter (fun r => r.1.year ≤ today.year) = [] :=
      List.filter_eq_nil_iff.mpr fun r hr => by simpa using h2 r hr
    rw [e3a, e3b]
    cases (recs.filter (fun r => r.1.ble today)).getLast? <;>
      cases (recs.filter (fun r => r.1.ble (monthsAgo1 today))).getLast? <;>
      rfl
  · rw [hble (yearsAgo1 today) h]
    cases (recs.filter (fun r => r.1.ble today)).getLast? <;>
      cases (recs.filter (fun r => r.1.ble (monthsAgo1 today))).getLast? <;>
      cases (recs.filter (fun r => decide (today.year ≤ r.1.year))).head? <;>
      cases (recs.filter (fun r => decide (r.1.year ≤ today.year))).getLast? <;>
      rfl

/-- Witness for `C6_missing_baseline`: an empty record store makes every
anchor lookup fail and the call error with the missing baseline. -/
theorem C6_witness :
    get_data_table [] ⟨2026, 10, 12⟩ = .error .missingBaseline :=
  C6_missing_baseline [] ⟨2026, 10, 12⟩ (Or.inl (by simp))

/-- Full resolution of `get_data_table` in terms of spec-level anchor
characterizations: the current, month-ago and year-ago anchors are the
most recent records at or before the respective dates, `start_year` is
the first record with year at or after the current year (falling back to
the most recent record with year at or before it), and each non-current
entry is `(current - reference) / reference * 100`. -/
theorem get_data_table_resolved (recs : List (Date × ℚ)) (today : Date)
    (hs : recs.Pairwise (fun a b => Date.ltP a.1 b.1))
    (c m s y : Date × ℚ)
    (hc1 : c ∈ recs) (hc2 : Date.leP c.1 today)
    (hc3 : ∀ r ∈ recs, Date.leP r.1 today → Date.leP r.1 c.1)
    (hm1 : m ∈ recs) (hm2 : Date.leP m.1 (monthsAgo1 today))
    (hm3 : ∀ r ∈ recs, Date.leP r.1 (monthsAgo1 today) → Date.leP r.1 m.1)
    (hsy : (s ∈ recs ∧ today.year ≤ s.1.year
             ∧ ∀ r ∈ recs, today.year ≤ r.1.year → Date.leP s.1 r.1)
         ∨ ((∀ r ∈ recs, r.1.year < today.year) ∧ s ∈ recs
             ∧ ∀ r ∈ recs, Date.leP r.1 s.1))
    (hy1 : y ∈ recs) (hy2 : Date.leP y.1 (yearsAgo1 today))
    (hy3 : ∀ r ∈ recs, Date.leP r.1 (yearsAgo1 today) → Date.leP r.1 y.1)
    (hm0 : m.2 ≠ 0) (hs0 : s.2 ≠ 0) (hy0 : y.2 ≠ 0) :
    get_data_table recs today =
      .ok ⟨c.2, (c.2 - m.2) / m.2 * 100, (c.2 - s.2) / s.2 * 100,
           (c.2 - y.2) / y.2 * 100⟩ := by
  have hblec : ∀ (x : Date) (r : Date × ℚ), Date.leP r.1 x →
      (r.1.ble x) = true := fun x r h => decide_eq_true h
  have hblec' : ∀ (x : Date) (r : Date × ℚ), (r.1.ble x) = true →
      Date.leP r.1 x := fun x r h => of_decide_eq_true h
  have e1 : (recs.filter (fun r => r.1.ble today)).getLast? = some c :=
    getLast?_filter_of_max hs hc1 (hblec today c hc2)
      fun r hr hpr => Date.leP_not_ltP (hc3 r hr (hblec' today r hpr))
  have e2 : (recs.filter (fun r => r.1.ble (monthsAgo1 today))).getLast? =
      some m :=
    getLast?_filter_of_max hs hm1 (hblec _ m hm2)
      fun r hr hpr => Date.leP_not_ltP (hm3 r hr (hblec' _ r hpr))
  have e4 : (recs.filter (fun r => r.1.ble (yearsAgo1 today))).getLast? =
      some y :=
    getLast?_filter_of_max hs hy1 (hblec _ y hy2)
      fun r hr hpr => Date.leP_not_ltP (hy3 r hr (hblec' _ r hpr))
  have e3 : (match (recs.filter
        (fun r => decide (today.year ≤ r.1.year))).head? with
      | some r => some r
      | none =>
        (recs.filter (fun r => decide (r.1.year ≤ today.year))).getLast?) =
      some s := by
    rcases hsy with ⟨hs1, hs2, hs3⟩ | ⟨hlt, hs1, hs3⟩
    · rw [head?_filter_of_min hs hs1 (by simpa using hs2)
        fun r hr hpr => Date.leP_not_ltP (hs3 r hr (by simpa using hpr))]
    · have hnil : recs.filter (fun r => decide (today.year ≤ r.1.year)) = [] :=
        List.filter_eq_nil_iff.mpr fun r hr => by
          have := hlt r hr
          simp
          omega
      rw [hnil]
      show (recs.filter (fun r => decide (r.1.year ≤ today.year))).getLast? =
        some s
      refine getLast?_filter_of_max hs hs1 ?_
        fun r hr hpr => Date.leP_not_ltP (hs3 r hr)
      have := hlt s hs1
      simp
      omega
  unfold get_data_table
  dsimp only
  rw [e1, e2, e3, e4]
  dsimp only
  rw [if_neg hm0, if_neg hs0, if_neg hy0]

/-- C5 (amended): with records sorted by date, `get_data_table` resolves
the current, month-ago and year-ago anchors as the most recent record at
or before today, today minus one calendar month and today minus one
calendar year, resolves `start_year` as the first record *in the current
calendar year or later* (the source filters `date__year__gte`), falling
back to the most recent record dated in the current year or earlier when
no record in the current year or later exists, and returns for each
non-current anchor the percentage
`(current - reference) / reference * 100`. -/
theorem C5_table_deltas (recs : List (Date × ℚ)) (today : Date)
    (hs : recs.Pairwise (fun a b => Date.ltP a.1 b.1))
    (c m s y : Date × ℚ)
    (hc1 : c ∈ recs) (hc2 : Date.leP c.1 today)
    (hc3 : ∀ r ∈ recs, Date.leP r.1 today → Date.leP r.1 c.1)
    (hm1 : m ∈ recs) (hm2 : Date.leP m.1 (monthsAgo1 today))
    (hm3 : ∀ r ∈ recs, Date.leP r.1 (monthsAgo1 today) → Date.leP r.1 m.1)
    (hsy : (s ∈ recs ∧ today.year ≤ s.1.year
             ∧ ∀ r ∈ recs, today.year ≤ r.1.year → Date.leP s.1 r.1)
         ∨ ((∀ r ∈ recs, r.1.year < today.year) ∧ s ∈ recs
             ∧ ∀ r ∈ recs, Date.leP r.1 s.1))
    (hy1 : y ∈ recs) (hy2 : Date.leP y.1 (yearsAgo1 today))
    (hy3 : ∀ r ∈ recs, Date.leP r.1 (yearsAgo1 today) → Date.leP r.1 y.1)
    (hm0 : m.2 ≠ 0) (hs0 : s.2 ≠ 0) (hy0 : y.2 ≠ 0) :
    get_data_table recs today =
      .ok ⟨c.2, (c.2 - m.2) / m.2 * 100, (c.2 - s.2) / s.2 * 100,
           (c.2 - y.2) / y.2 * 100⟩ :=
  get_data_table_resolved recs today hs c m s y hc1 hc2 hc3 hm1 hm2 hm3
    hsy hy1 hy2 hy3 hm0 hs0 hy0

/-- Witness for `C5_table_deltas`: current 120, month-ago 100,
start-of-year 100, year-ago 80 give deltas 20, 20, 50 — in particular the
claim's example `current=120, month_ago=100 → 20.0`. -/
theorem C5_witness :
    get_data_table [(⟨2025, 10, 1⟩, 80), (⟨2026, 9, 1⟩, 100),
        (⟨2026, 10, 1⟩, 120)] ⟨2026, 10, 12⟩ = .ok ⟨120, 20, 20, 50⟩ := by
  have h := C5_table_deltas
    [(⟨2025, 10, 1⟩, 80), (⟨2026, 9, 1⟩, 100), (⟨2026, 10, 1⟩, 120)]
    ⟨2026, 10, 12⟩ (by decide)
    (⟨2026, 10, 1⟩, 120) (⟨2026, 9, 1⟩, 100) (⟨2026, 9, 1⟩, 100)
    (⟨2025, 10, 1⟩, 80)
    (by decide) (by decide) (by decide)
    (by decide) (by decide) (by decide)
    (Or.inl ⟨by decide, by decide, by decide⟩)
    (by decide) (by decide) (by decide)
    (by norm_num) (by norm_num) (by norm_num)
  rw [h]
  norm_num

/-- Counterexample to C5 as stated: today is 2026-10-12, the store holds
records on 2025-06-01 (value 80) and 2027-01-01 (value 200).  The claim
resolves `start_year` inside the current calendar year — empty, so its
fallback gives the 2025 record and a start-year delta of 0 — but the
code's `date__year__gte` filter (line 401) picks the *2027* record and
returns a start-year delta of −60. -/
theorem C5_counterexample :
    get_data_table [(⟨2025, 6, 1⟩, 80), (⟨2027, 1, 1⟩, 200)]
        ⟨2026, 10, 12⟩ = .ok ⟨80, 0, -60, 0⟩
    ∧ claimedStartYear [(⟨2025, 6, 1⟩, 80), (⟨2027, 1, 1⟩, 200)]
        (⟨2026, 10, 12⟩ : Date).year = some (⟨2025, 6, 1⟩, 80)
    ∧ ((80 : ℚ) - 80) / 80 * 100 = 0
    ∧ (-60 : ℚ) ≠ 0 := by
  refine ⟨?_, by decide, by norm_num, by norm_num⟩
  have h := get_data_table_resolved
    [(⟨2025, 6, 1⟩, 80), (⟨2027, 1, 1⟩, 200)] ⟨2026, 10, 12⟩ (by decide)
    (⟨2025, 6, 1⟩, 80) (⟨2025, 6, 1⟩, 80) (⟨2027, 1, 1⟩, 200)
    (⟨2025, 6, 1⟩, 80)
    (by decide) (by decide) (by decide)
    (by decide) (by decide) (by decide)
    (Or.inl ⟨by decide, by decide, by decide⟩)
    (by decide) (by decide) (by decide)
    (by norm_num) (by norm_num) (by norm_num)
  rw [h]
  norm_num
